import Mathlib

/-!
Verification of the webflow repository: a shallow embedding of
src/scripts/benchmark.ts (the benchmark measurement/aggregation harness)
and src/scripts/schema-generator.ts (LLM completion parsing with a
hard-coded fallback schema, and SQL rendering), together with theorems
settling the specification claims about them.

Conventions of the embedding:
- JavaScript numbers used as millisecond timestamps/durations are Nat;
  the arithmetic the aggregator performs on them (float division) is ℚ.
- A JavaScript async action is modelled by its observable behaviour: the
  elapsed wall-clock time it took and whether it resolved or threw.
- A thrown JavaScript value is either an Error instance carrying a
  message string, or any other value (the code only distinguishes these
  two cases, via instanceof Error).
- Fallible code is Option-valued.
-/

/-! ## Data model of benchmark.ts -/

/-- BenchmarkResult record from src/scripts/benchmark.ts lines 9-16. -/
structure BenchmarkResult where
  database : String
  operation : String
  duration : Nat
  latency : Nat
  success : Bool
  error : Option String
deriving DecidableEq, Repr

/-- A value thrown by a JavaScript action: either an Error instance with
its message, or any non-Error value. This is the only distinction the
catch block of measureOperation makes (instanceof Error). -/
inductive JsThrown where
  | error (message : String)
  | other
deriving DecidableEq, Repr

/-- The error message measureOperation records for a thrown value:
error instanceof Error ? error.message : 'Unknown error'. -/
def thrownMessage : JsThrown → String
  | JsThrown.error m => m
  | JsThrown.other => "Unknown error"

/-- Observable behaviour of one invocation of an async action: the
elapsed wall-clock milliseconds (Date.now() - start) and whether the
promise resolved or rejected with a thrown value. -/
structure ActionRun where
  elapsed : Nat
  outcome : Except JsThrown Unit

/-- DatabaseBenchmark.measureOperation (benchmark.ts lines 30-56):
runs the action, and pushes exactly one BenchmarkResult onto the results
array. On success it records duration = latency = elapsed and no error;
in the catch branch it records duration = elapsed, latency = 0,
success = false and the thrown value's message. The function is total:
the catch branch swallows the thrown value, so the timer never throws. -/
def measureOperation (database operation : String) (elapsed : Nat)
    (outcome : Except JsThrown Unit) (results : List BenchmarkResult) :
    List BenchmarkResult :=
  match outcome with
  | Except.ok _ =>
      results ++ [⟨database, operation, elapsed, elapsed, true, none⟩]
  | Except.error e =>
      results ++ [⟨database, operation, elapsed, 0, false, some (thrownMessage e)⟩]

/-- A sequence of timer invocations, each with its backend label,
operation label and action behaviour, folded over the results array. -/
def runTimers (invocations : List (String × String × ActionRun))
    (results : List BenchmarkResult) : List BenchmarkResult :=
  invocations.foldl
    (fun acc inv => measureOperation inv.1 inv.2.1 inv.2.2.elapsed inv.2.2.outcome acc)
    results

/-- DatabaseBenchmark.runWriteTest (benchmark.ts lines 58-90): three
timer invocations, Neon then Supabase then MongoDB, all labelled
'Write 10k rows'. The per-backend actions are external database calls,
modelled by their ActionRun behaviours. -/
def runWriteTest (neonRun supabaseRun mongoRun : ActionRun)
    (results : List BenchmarkResult) : List BenchmarkResult :=
  let results := measureOperation "Neon" "Write 10k rows"
    neonRun.elapsed neonRun.outcome results
  let results := measureOperation "Supabase" "Write 10k rows"
    supabaseRun.elapsed supabaseRun.outcome results
  measureOperation "MongoDB" "Write 10k rows"
    mongoRun.elapsed mongoRun.outcome results

/-- DatabaseBenchmark.runReadTest (benchmark.ts lines 92-193): six timer
invocations, 'Simple Query' against Neon, Supabase, MongoDB, then
'Complex Query' against Neon, Supabase, MongoDB. -/
def runReadTest (nSimple sSimple mSimple nComplex sComplex mComplex : ActionRun)
    (results : List BenchmarkResult) : List BenchmarkResult :=
  let results := measureOperation "Neon" "Simple Query"
    nSimple.elapsed nSimple.outcome results
  let results := measureOperation "Supabase" "Simple Query"
    sSimple.elapsed sSimple.outcome results
  let results := measureOperation "MongoDB" "Simple Query"
    mSimple.elapsed mSimple.outcome results
  let results := measureOperation "Neon" "Complex Query"
    nComplex.elapsed nComplex.outcome results
  let results := measureOperation "Supabase" "Complex Query"
    sComplex.elapsed sComplex.outcome results
  measureOperation "MongoDB" "Complex Query"
    mComplex.elapsed mComplex.outcome results

/-- DatabaseBenchmark.runColdStartTest (benchmark.ts lines 195-209):
two timer invocations labelled 'Cold Start', against Neon and MongoDB.
The source contains no Supabase cold-start invocation. -/
def runColdStartTest (neonRun mongoRun : ActionRun)
    (results : List BenchmarkResult) : List BenchmarkResult :=
  let results := measureOperation "Neon" "Cold Start"
    neonRun.elapsed neonRun.outcome results
  measureOperation "MongoDB" "Cold Start"
    mongoRun.elapsed mongoRun.outcome results

/-- The (backend, operation) pair of a result, the data the workload
runners pass as the first two arguments of each timer invocation. -/
def invocationKey (r : BenchmarkResult) : String × String :=
  (r.database, r.operation)

/-! ## Aggregation (DatabaseBenchmark.printResults, benchmark.ts 211-234) -/

/-- The grouping key printResults computes for a result:
the template literal representing the database, a dash, and the
operation (benchmark.ts line 216). -/
def groupKey (r : BenchmarkResult) : String :=
  r.database ++ "-" ++ r.operation

/-- One step of the reduce at benchmark.ts lines 215-222: push the
result onto the bucket for its key, creating the bucket at the end of
the accumulator if the key is not yet present (JavaScript object
property insertion order for the non-index keys used here). -/
def pushToGroup : List (String × List BenchmarkResult) → String →
    BenchmarkResult → List (String × List BenchmarkResult)
  | [], key, r => [(key, [r])]
  | (k, g) :: rest, key, r =>
      if k = key then (k, g ++ [r]) :: rest
      else (k, g) :: pushToGroup rest key r

/-- The groupedResults accumulator of printResults: reduce the results
array into key-indexed buckets. -/
def groupedResults (results : List BenchmarkResult) :
    List (String × List BenchmarkResult) :=
  results.foldl (fun acc r => pushToGroup acc (groupKey r) r) []

/-- Sum of durations as computed by the reduce at benchmark.ts line 225,
carried out in ℚ to model JavaScript float arithmetic. -/
def sumDurations (results : List BenchmarkResult) : ℚ :=
  results.foldl (fun sum r => sum + (r.duration : ℚ)) 0

/-- avgDuration of a group (benchmark.ts line 225):
sum of all durations divided by the group size. -/
def avgDuration (results : List BenchmarkResult) : ℚ :=
  sumDurations results / (results.length : ℚ)

/-- Number of successful results in a group (benchmark.ts line 226). -/
def successCount (results : List BenchmarkResult) : Nat :=
  (results.filter (fun r => r.success)).length

/-- successRate of a group (benchmark.ts line 226):
successes divided by group size, times 100. -/
def successRate (results : List BenchmarkResult) : ℚ :=
  ((successCount results : ℚ) / (results.length : ℚ)) * 100

/-! ## Data model of schema-generator.ts -/

/-- SchemaField record (schema-generator.ts lines 10-15). -/
structure SchemaField where
  name : String
  type : String
  constraints : List String
  description : String
deriving DecidableEq, Repr

/-- TableSchema record (schema-generator.ts lines 17-22). -/
structure TableSchema where
  name : String
  fields : List SchemaField
  relationships : List String
  indexes : List String
deriving DecidableEq, Repr

/-- The hard-coded fallback mockSchema
(schema-generator.ts lines 108-177). -/
def mockSchema : List TableSchema :=
  [⟨"users",
    [⟨"id", "SERIAL", ["PRIMARY KEY"], "Unique identifier for the user"⟩,
     ⟨"username", "VARCHAR(50)", ["NOT NULL", "UNIQUE"], "User's username"⟩,
     ⟨"email", "VARCHAR(255)", ["NOT NULL", "UNIQUE"], "User's email"⟩,
     ⟨"created_at", "TIMESTAMP", ["NOT NULL", "DEFAULT CURRENT_TIMESTAMP"],
      "Creation timestamp"⟩],
    [],
    ["CREATE INDEX idx_users_username ON users(username);"]⟩,
   ⟨"posts",
    [⟨"id", "SERIAL", ["PRIMARY KEY"], "Unique identifier for the post"⟩,
     ⟨"title", "VARCHAR(255)", ["NOT NULL"], "Post title"⟩,
     ⟨"content", "TEXT", ["NOT NULL"], "Post content"⟩,
     ⟨"user_id", "INTEGER", ["NOT NULL", "REFERENCES users(id)"], "Author ID"⟩,
     ⟨"created_at", "TIMESTAMP", ["NOT NULL", "DEFAULT CURRENT_TIMESTAMP"],
      "Creation timestamp"⟩],
    ["FOREIGN KEY (user_id) REFERENCES users(id)"],
    ["CREATE INDEX idx_posts_user_id ON posts(user_id);"]⟩]

/-- One column definition line (schema-generator.ts lines 184-187):
two spaces, the field name, the type, and the constraints joined by
single spaces. -/
def fieldLine (f : SchemaField) : String :=
  "  " ++ f.name ++ " " ++ f.type ++ " " ++ " ".intercalate f.constraints

/-- The CREATE TABLE template literal pushed for one table
(schema-generator.ts lines 189-192): a leading newline, the header,
the column lines joined by comma-newline, and the closing line. -/
def createTableStatement (t : TableSchema) : String :=
  "\nCREATE TABLE " ++ t.name ++ " (\n" ++
    ",\n".intercalate (t.fields.map fieldLine) ++ "\n);"

/-- The sqlStatements array generateSQL builds (schema-generator.ts
lines 180-198): for each table in order, push its CREATE TABLE
statement, then push each of its index strings verbatim. -/
def sqlStatements (schema : List TableSchema) : List String :=
  schema.foldl
    (fun acc t => (acc ++ [createTableStatement t]) ++ t.indexes) []

/-- generateSQL (schema-generator.ts line 200):
the statements joined by blank lines. -/
def generateSQL (schema : List TableSchema) : String :=
  "\n\n".intercalate (sqlStatements schema)

/-- Ambient process state a JavaScript function could observe: the
environment, the wall clock and a randomness source. The body of
generateSQL references none of these, which the embedding makes
explicit by ignoring the parameter. -/
structure World where
  envVars : List (String × String)
  now : Nat
  randomSeed : Nat

/-- generateSQL run in an ambient world: the source body reads no
environment variable, clock or randomness, so the translation discards
the World argument. -/
def generateSQLRun (schema : List TableSchema) (_ : World) : String :=
  generateSQL schema

/-! ## generateSchema response cleanup (schema-generator.ts lines 78-105)

The source cleans the completion text with three regex replacements and
a trim, extracts the first-brace-to-last-brace substring, parses it
with JSON.parse, and returns schema.tables; any exception in that block
is caught and the hard-coded mockSchema is returned instead. -/

/-- The backtick character, code point 96. -/
def backquote : Char := Char.ofNat 96

/-- The opening curly brace character, code point 123. -/
def lbrace : Char := Char.ofNat 123

/-- The closing curly brace character, code point 125. -/
def rbrace : Char := Char.ofNat 125

/-- Lowercase ASCII letter test, the character class of the code-fence
regex. -/
def isLowerAZ (c : Char) : Bool := 'a' ≤ c && c ≤ 'z'

/-- JavaScript regex whitespace class (backslash-s): ASCII whitespace,
NBSP, OGHAM space, the U+2000 to U+200A range, line and paragraph
separators, narrow/medium spaces, ideographic space and BOM. -/
def isJsSpace (c : Char) : Bool :=
  c == ' ' || c == '\t' || c == '\n' || c == '\x0b' || c == '\x0c' ||
  c == '\r' || c.toNat == 0xa0 || c.toNat == 0x1680 ||
  (0x2000 ≤ c.toNat && c.toNat ≤ 0x200a) || c.toNat == 0x2028 ||
  c.toNat == 0x2029 || c.toNat == 0x202f || c.toNat == 0x205f ||
  c.toNat == 0x3000 || c.toNat == 0xfeff

/-- Match the code-fence regex alternation at the head of the input:
either three backticks, a run of lowercase letters, and a newline, or a
newline followed by three backticks (the left alternative is tried
first, as in JavaScript regex alternation). Returns the rest of the
input past the match. -/
def matchFence (cs : List Char) : Option (List Char) :=
  let viaNewline : Option (List Char) :=
    match cs with
    | a :: b :: c :: d :: r =>
        if a = '\n' ∧ b = backquote ∧ c = backquote ∧ d = backquote then some r
        else none
    | _ => none
  match cs with
  | a :: b :: c :: rest =>
      if a = backquote ∧ b = backquote ∧ c = backquote then
        match rest.dropWhile isLowerAZ with
        | '\n' :: r => some r
        | _ => viaNewline
      else viaNewline
  | _ => viaNewline

/-- Global replacement of the code-fence regex with the empty string:
scan left to right, removing each non-overlapping match. Fuel-indexed;
each step consumes at least one character, so fuel = length + 1 always
suffices. -/
def stripCodeBlocksAux : Nat → List Char → List Char
  | 0, cs => cs
  | _ + 1, [] => []
  | fuel + 1, c :: cs =>
    match matchFence (c :: cs) with
    | some rest => stripCodeBlocksAux fuel rest
    | none => c :: stripCodeBlocksAux fuel cs

/-- replace(code-fence regex, '') from schema-generator.ts line 81. -/
def stripCodeBlocks (cs : List Char) : List Char :=
  stripCodeBlocksAux (cs.length + 1) cs

/-- replace(newline regex, '') from schema-generator.ts line 82:
delete every newline. -/
def removeNewlines (cs : List Char) : List Char :=
  cs.filter (fun c => c != '\n')

/-- Global replacement of whitespace runs by a single space,
fuel-indexed as for stripCodeBlocksAux. -/
def collapseWsAux : Nat → List Char → List Char
  | 0, cs => cs
  | _ + 1, [] => []
  | fuel + 1, c :: cs =>
    if isJsSpace c then ' ' :: collapseWsAux fuel (cs.dropWhile isJsSpace)
    else c :: collapseWsAux fuel cs

/-- replace(whitespace-run regex, ' ') from schema-generator.ts
line 83. -/
def collapseWs (cs : List Char) : List Char :=
  collapseWsAux (cs.length + 1) cs

/-- String.prototype.trim (schema-generator.ts line 84): remove
whitespace and line terminators from both ends. -/
def jsTrim (cs : List Char) : List Char :=
  ((cs.dropWhile isJsSpace).reverse.dropWhile isJsSpace).reverse

/-- cleanedResponse (schema-generator.ts lines 80-84): strip code
fences, delete newlines, collapse whitespace runs, trim. -/
def cleanResponse (response : String) : List Char :=
  jsTrim (collapseWs (removeNewlines (stripCodeBlocks response.data)))

/-- Prefix of the input up to and including its last closing brace. -/
def takeThroughLastRBrace (cs : List Char) : List Char :=
  (cs.reverse.dropWhile (fun c => c != rbrace)).reverse

/-- cleanedResponse.match of the first-brace-to-last-brace regex
(schema-generator.ts line 87). The cleaned text contains no line
terminators (newlines are deleted, other terminators are whitespace
and collapsed to spaces), so the regex dot matches every remaining
character and the unique match runs from the first opening brace to
the last closing brace after it; if there is no such pair the match
is null and the code throws into the catch block. -/
def extractBraces (cs : List Char) : Option (List Char) :=
  match cs.dropWhile (fun c => c != lbrace) with
  | [] => none
  | c :: rest =>
      if rest.contains rbrace then some (c :: takeThroughLastRBrace rest)
      else none

/-! ## JSON.parse (ECMA-404 grammar, as invoked at schema-generator.ts
line 95) -/

/-- A parsed JSON value. Numbers are carried as rationals, which is
exact for every JSON numeral; object members are kept in source order
with duplicates, and member access resolves to the last occurrence as
JavaScript property assignment does. -/
inductive JsonValue where
  | null
  | boolean (b : Bool)
  | num (q : ℚ)
  | str (s : String)
  | arr (elems : List JsonValue)
  | obj (fields : List (String × JsonValue))

/-- JSON insignificant whitespace: space, tab, newline, carriage
return. -/
def skipJsonWs (cs : List Char) : List Char :=
  cs.dropWhile (fun c => c == ' ' || c == '\t' || c == '\n' || c == '\r')

/-- Value of a hexadecimal digit. -/
def hexVal (c : Char) : Option Nat :=
  if '0' ≤ c ∧ c ≤ '9' then some (c.toNat - 48)
  else if 'a' ≤ c ∧ c ≤ 'f' then some (c.toNat - 87)
  else if 'A' ≤ c ∧ c ≤ 'F' then some (c.toNat - 55)
  else none

/-- Decimal value of a digit string. -/
def digitsToNat (ds : List Char) : Nat :=
  ds.foldl (fun n c => n * 10 + (c.toNat - 48)) 0

/-- Parse the body of a JSON string after its opening quote, returning
the decoded characters and the input past the closing quote. Raw
control characters are rejected and the JSON escape sequences are
decoded, as JSON.parse does. Fuel-indexed; one character is consumed
per step, so fuel = length + 1 suffices. -/
def parseStringBody : Nat → List Char → Option (List Char × List Char)
  | 0, _ => none
  | _ + 1, [] => none
  | fuel + 1, c :: cs =>
    if c = '"' then some ([], cs)
    else if c = '\\' then
      match cs with
      | [] => none
      | e :: cs2 =>
        let cont (decoded : Char) (rest : List Char) :
            Option (List Char × List Char) :=
          match parseStringBody fuel rest with
          | some (s, r) => some (decoded :: s, r)
          | none => none
        if e = '"' then cont '"' cs2
        else if e = '\\' then cont '\\' cs2
        else if e = '/' then cont '/' cs2
        else if e = 'b' then cont '\x08' cs2
        else if e = 'f' then cont '\x0c' cs2
        else if e = 'n' then cont '\n' cs2
        else if e = 'r' then cont '\r' cs2
        else if e = 't' then cont '\t' cs2
        else if e = 'u' then
          match cs2 with
          | h1 :: h2 :: h3 :: h4 :: cs3 =>
            match hexVal h1, hexVal h2, hexVal h3, hexVal h4 with
            | some a, some b, some c3, some d =>
                cont (Char.ofNat (a * 4096 + b * 256 + c3 * 16 + d)) cs3
            | _, _, _, _ => none
          | _ => none
        else none
    else if c.toNat < 32 then none
    else
      match parseStringBody fuel cs with
      | some (s, r) => some (c :: s, r)
      | none => none

/-- Parse a JSON numeral at the head of the input: optional minus, an
integer part with no superfluous leading zero, an optional fraction
with at least one digit, an optional exponent with at least one
digit. -/
def parseNumber (cs : List Char) : Option (ℚ × List Char) :=
  let signAndRest : Bool × List Char :=
    match cs with
    | c :: rest => if c = '-' then (true, rest) else (false, cs)
    | [] => (false, cs)
  match signAndRest.2 with
  | [] => none
  | c :: rest =>
    if c.isDigit then
      let intPart : List Char × List Char :=
        if c = '0' then ([c], rest)
        else (c :: rest.takeWhile Char.isDigit, rest.dropWhile Char.isDigit)
      let intVal : ℚ := (digitsToNat intPart.1 : ℚ)
      let afterFrac : Option (ℚ × List Char) :=
        match intPart.2 with
        | p :: r2 =>
          if p = '.' then
            let fds := r2.takeWhile Char.isDigit
            if fds.isEmpty then none
            else some (intVal + (digitsToNat fds : ℚ) / ((10 : ℚ) ^ fds.length),
                       r2.dropWhile Char.isDigit)
          else some (intVal, intPart.2)
        | [] => some (intVal, intPart.2)
      match afterFrac with
      | none => none
      | some (mant, cs3) =>
        let afterExp : Option (ℚ × List Char) :=
          match cs3 with
          | e :: r3 =>
            if e = 'e' ∨ e = 'E' then
              let expSignAndRest : ℤ × List Char :=
                match r3 with
                | s :: r4 =>
                  if s = '+' then ((1 : ℤ), r4)
                  else if s = '-' then ((-1 : ℤ), r4)
                  else ((1 : ℤ), r3)
                | [] => ((1 : ℤ), r3)
              let eds := expSignAndRest.2.takeWhile Char.isDigit
              if eds.isEmpty then none
              else some (mant * (10 : ℚ) ^ (expSignAndRest.1 * (digitsToNat eds : ℤ)),
                         expSignAndRest.2.dropWhile Char.isDigit)
            else some (mant, cs3)
          | [] => some (mant, cs3)
        match afterExp with
        | none => none
        | some (v, csF) => some ((if signAndRest.1 then -v else v), csF)
    else none

mutual

/-- Parse one JSON value at the head of the input (no leading
whitespace), fuel-indexed. Every recursive descent is preceded by the
consumption of at least one character, so the fuel jsonParseChars
supplies is always sufficient. -/
def parseJsonValue : Nat → List Char → Option (JsonValue × List Char)
  | 0, _ => none
  | fuel + 1, cs =>
    match cs with
    | [] => none
    | c :: rest =>
      if c = lbrace then parseObjectBody fuel (skipJsonWs rest)
      else if c = '[' then parseArrayBody fuel (skipJsonWs rest)
      else if c = '"' then
        match parseStringBody (rest.length + 1) rest with
        | some (s, r) => some (JsonValue.str (String.mk s), r)
        | none => none
      else if c = 't' then
        match rest with
        | 'r' :: 'u' :: 'e' :: r => some (JsonValue.boolean true, r)
        | _ => none
      else if c = 'f' then
        match rest with
        | 'a' :: 'l' :: 's' :: 'e' :: r => some (JsonValue.boolean false, r)
        | _ => none
      else if c = 'n' then
        match rest with
        | 'u' :: 'l' :: 'l' :: r => some (JsonValue.null, r)
        | _ => none
      else
        match parseNumber cs with
        | some (q, r) => some (JsonValue.num q, r)
        | none => none

/-- Parse the inside of a JSON object after the opening brace and
whitespace: either an immediate closing brace, or a first member
followed by parseObjectRest. -/
def parseObjectBody : Nat → List Char → Option (JsonValue × List Char)
  | 0, _ => none
  | fuel + 1, cs =>
    match cs with
    | [] => none
    | c :: rest =>
      if c = rbrace then some (JsonValue.obj [], rest)
      else if c = '"' then
        match parseStringBody (rest.length + 1) rest with
        | some (key, r1) =>
          match skipJsonWs r1 with
          | ':' :: r2 =>
            match parseJsonValue fuel (skipJsonWs r2) with
            | some (v, r3) =>
                parseObjectRest fuel [(String.mk key, v)] (skipJsonWs r3)
            | none => none
          | _ => none
        | none => none
      else none

/-- Parse the continuation of a JSON object after a member: a closing
brace ends it, a comma is followed by the next member. -/
def parseObjectRest : Nat → List (String × JsonValue) → List Char →
    Option (JsonValue × List Char)
  | 0, _, _ => none
  | fuel + 1, fields, cs =>
    match cs with
    | [] => none
    | c :: rest =>
      if c = rbrace then some (JsonValue.obj fields, rest)
      else if c = ',' then
        match skipJsonWs rest with
        | q :: r1 =>
          if q = '"' then
            match parseStringBody (r1.length + 1) r1 with
            | some (key, r2) =>
              match skipJsonWs r2 with
              | ':' :: r3 =>
                match parseJsonValue fuel (skipJsonWs r3) with
                | some (v, r4) =>
                    parseObjectRest fuel (fields ++ [(String.mk key, v)])
                      (skipJsonWs r4)
                | none => none
              | _ => none
            | none => none
          else none
        | [] => none
      else none

/-- Parse the inside of a JSON array after the opening bracket and
whitespace: either an immediate closing bracket, or a first element
followed by parseArrayRest. -/
def parseArrayBody : Nat → List Char → Option (JsonValue × List Char)
  | 0, _ => none
  | fuel + 1, cs =>
    match cs with
    | [] => none
    | c :: _ =>
      if c = ']' then some (JsonValue.arr [], cs.tail)
      else
        match parseJsonValue fuel cs with
        | some (v, r1) => parseArrayRest fuel [v] (skipJsonWs r1)
        | none => none

/-- Parse the continuation of a JSON array after an element: a closing
bracket ends it, a comma is followed by the next element. -/
def parseArrayRest : Nat → List JsonValue → List Char →
    Option (JsonValue × List Char)
  | 0, _, _ => none
  | fuel + 1, elems, cs =>
    match cs with
    | [] => none
    | c :: rest =>
      if c = ']' then some (JsonValue.arr elems, rest)
      else if c = ',' then
        match parseJsonValue fuel (skipJsonWs rest) with
        | some (v, r1) => parseArrayRest fuel (elems ++ [v]) (skipJsonWs r1)
        | none => none
      else none

end

/-- JSON.parse of a character list: leading whitespace, one value,
trailing whitespace, and nothing else; any other input is a parse
error (none), which in the source throws into the catch block. -/
def jsonParseChars (cs : List Char) : Option JsonValue :=
  match parseJsonValue (4 * cs.length + 8) (skipJsonWs cs) with
  | some (v, rest) => if (skipJsonWs rest).isEmpty then some v else none
  | none => none

/-- Last-occurrence member lookup in a JSON object field list, matching
the JavaScript semantics where a later duplicate key overwrites an
earlier one. -/
def lookupLast : List (String × JsonValue) → String → Option JsonValue
  | [], _ => none
  | (k, x) :: rest, key =>
    match lookupLast rest key with
    | some y => some y
    | none => if k = key then some x else none

/-- JavaScript member access value.tables: a present property's value,
or undefined (none) when the property is absent or the value is not an
object. -/
def getMember (v : JsonValue) (key : String) : Option JsonValue :=
  match v with
  | JsonValue.obj fields => lookupLast fields key
  | _ => none

/-- Outcome of the parsing stage of generateSchema: either the value of
the parsed object's tables property as returned at schema-generator.ts
line 96 (none modelling undefined, since member access on a parsed
object does not throw), or the mockSchema fallback taken in the catch
block. -/
inductive GenerateSchemaResult where
  | parsed (tables : Option JsonValue)
  | fallback

/-- Discriminator for the fallback outcome. -/
def isFallback : GenerateSchemaResult → Bool
  | GenerateSchemaResult.fallback => true
  | GenerateSchemaResult.parsed _ => false

/-- The parsing stage of generateSchema (schema-generator.ts lines
78-105) on a completion text: clean the response, extract the brace
substring, JSON.parse it, and return its tables member; a failed
extraction or parse throws and is caught, yielding the fallback. -/
def generateSchemaParse (response : String) : GenerateSchemaResult :=
  match extractBraces (cleanResponse response) with
  | none => GenerateSchemaResult.fallback
  | some js =>
    match jsonParseChars js with
    | none => GenerateSchemaResult.fallback
    | some v => GenerateSchemaResult.parsed (getMember v "tables")

/-! ## Auxiliary definitions for the statements below -/

/-- Well-formedness of a grouping accumulator: bucket keys are
pairwise distinct, and every result stored in a bucket has that
bucket's key. -/
def GroupsWF (acc : List (String × List BenchmarkResult)) : Prop :=
  (acc.map Prod.fst).Nodup ∧ ∀ p ∈ acc, ∀ x ∈ p.2, groupKey x = p.1

/-- A concrete successful benchmark result used to instantiate
universally quantified theorems. -/
def rA : BenchmarkResult :=
  ⟨"Neon", "Write 10k rows", 120, 120, true, none⟩

/-- A concrete failed benchmark result used to instantiate universally
quantified theorems. -/
def rB : BenchmarkResult :=
  ⟨"MongoDB", "Write 10k rows", 80, 0, false, some "connection refused"⟩

/-- A result whose backend name contains a dash, exhibiting the
composite-key collision of the grouping reduce. -/
def rCollide1 : BenchmarkResult := ⟨"a-b", "c", 1, 1, true, none⟩

/-- A result with a different backend and operation from rCollide1 but
the same composite key string. -/
def rCollide2 : BenchmarkResult := ⟨"a", "b-c", 2, 2, true, none⟩

/-! # Theorems -/

/-! ## Operation timer (measureOperation) -/

theorem measureOperation_length (db op : String) (el : Nat)
    (o : Except JsThrown Unit) (rs : List BenchmarkResult) :
    (measureOperation db op el o rs).length = rs.length + 1 := by
  cases o <;> simp [measureOperation]

/-- C2: a single invocation of the operation timer appends exactly one
BenchmarkResult to the results sequence whether the action resolves or
throws (the timer is a total function of the action's behaviour, so it
never throws itself), and consequently any sequence of N timer
invocations grows the results sequence by exactly N entries. -/
theorem measure_operation_appends_one :
    (∀ (db op : String) (el : Nat) (o : Except JsThrown Unit)
        (rs : List BenchmarkResult),
      (measureOperation db op el o rs).length = rs.length + 1) ∧
    (∀ (invs : List (String × String × ActionRun))
        (rs : List BenchmarkResult),
      (runTimers invs rs).length = rs.length + invs.length) := by
  refine ⟨measureOperation_length, ?_⟩
  intro invs
  induction invs with
  | nil => intro rs; simp [runTimers]
  | cons inv rest ih =>
    intro rs
    have h := ih (measureOperation inv.1 inv.2.1 inv.2.2.elapsed
      inv.2.2.outcome rs)
    simp only [runTimers, List.foldl_cons] at h ⊢
    rw [h, measureOperation_length]
    simp only [List.length_cons]
    omega

/-- C3 counterexample: an action that throws an Error whose message is
the empty string yields a BenchmarkResult whose recorded error message
is the empty string — the claim that a failing action always yields a
non-empty error message is false on the code, which stores
error.message verbatim. -/
theorem measure_operation_empty_message_counterexample :
    measureOperation "Neon" "Write 10k rows" 5
        (Except.error (JsThrown.error "")) [] =
      [⟨"Neon", "Write 10k rows", 5, 0, false, some ""⟩] ∧
    ("" : String).length = 0 :=
  ⟨rfl, rfl⟩

/-- C3 (amended): a failing action always yields a result with
success = false and an error message present — the thrown Error's
message verbatim (which may be empty) or the literal 'Unknown error'
for a non-Error thrown value — and a succeeding action always yields
success = true and no error message. -/
theorem measure_operation_outcome_fields (db op : String) (el : Nat)
    (rs : List BenchmarkResult) (t : JsThrown) :
    (measureOperation db op el (Except.error t) rs).getLast? =
      some ⟨db, op, el, 0, false, some (thrownMessage t)⟩ ∧
    (measureOperation db op el (Except.ok ()) rs).getLast? =
      some ⟨db, op, el, el, true, none⟩ ∧
    thrownMessage JsThrown.other = "Unknown error" := by
  refine ⟨?_, ?_, rfl⟩ <;> simp [measureOperation, List.getLast?_concat]

/-- C10: when the action throws, the appended BenchmarkResult records
latency = 0 while the measured time-to-failure goes only into the
duration field, and a thrown value that is not an Error instance is
recorded with the literal error message 'Unknown error'. -/
theorem failure_latency_zero_and_unknown_error (db op : String)
    (el : Nat) (rs : List BenchmarkResult) :
    (∀ m : String,
      (measureOperation db op el (Except.error (JsThrown.error m))
          rs).getLast? = some ⟨db, op, el, 0, false, some m⟩) ∧
    (measureOperation db op el (Except.error JsThrown.other)
        rs).getLast? =
      some ⟨db, op, el, 0, false, some "Unknown error"⟩ := by
  constructor
  · intro m; simp [measureOperation, thrownMessage, List.getLast?_concat]
  · simp [measureOperation, thrownMessage, List.getLast?_concat]

/-! ## Workload runners -/

theorem measureOperation_map_key (db op : String) (el : Nat)
    (o : Except JsThrown Unit) (rs : List BenchmarkResult) :
    (measureOperation db op el o rs).map invocationKey =
      rs.map invocationKey ++ [(db, op)] := by
  cases o <;> simp [measureOperation, invocationKey]

/-- C6 counterexample: the cold-start runner produces results for Neon
and MongoDB only; no result with backend Supabase is appended, so the
claim that every runner covers all three backends is false on the
code. -/
theorem cold_start_missing_supabase_counterexample :
    (runColdStartTest ⟨1, Except.ok ()⟩ ⟨1, Except.ok ()⟩ []).map
        (fun r => r.database) = ["Neon", "MongoDB"] ∧
    ((runColdStartTest ⟨1, Except.ok ()⟩ ⟨1, Except.ok ()⟩ []).map
        (fun r => r.database)).contains "Supabase" = false :=
  ⟨rfl, rfl⟩

/-- C6 (amended): the write runner and the read runner invoke the
operation timer for each of the three backends in declaration order
(Neon, Supabase, MongoDB) for each logical operation they cover, while
the cold-start runner invokes it only for Neon and MongoDB, in that
order — it contains no Supabase invocation. -/
theorem runner_backend_sequences
    (w1 w2 w3 r1 r2 r3 r4 r5 r6 c1 c2 : ActionRun)
    (rs : List BenchmarkResult) :
    (runWriteTest w1 w2 w3 rs).map invocationKey =
      rs.map invocationKey ++
        [("Neon", "Write 10k rows"), ("Supabase", "Write 10k rows"),
         ("MongoDB", "Write 10k rows")] ∧
    (runReadTest r1 r2 r3 r4 r5 r6 rs).map invocationKey =
      rs.map invocationKey ++
        [("Neon", "Simple Query"), ("Supabase", "Simple Query"),
         ("MongoDB", "Simple Query"), ("Neon", "Complex Query"),
         ("Supabase", "Complex Query"), ("MongoDB", "Complex Query")] ∧
    (runColdStartTest c1 c2 rs).map invocationKey =
      rs.map invocationKey ++
        [("Neon", "Cold Start"), ("MongoDB", "Cold Start")] := by
  refine ⟨?_, ?_, ?_⟩ <;>
    simp [runWriteTest, runReadTest, runColdStartTest,
      measureOperation_map_key]

/-! ## SQL rendering -/

theorem sqlStatements_foldl_bind (schema : List TableSchema)
    (acc : List String) :
    schema.foldl
        (fun a t => (a ++ [createTableStatement t]) ++ t.indexes) acc =
      acc ++ schema.flatMap (fun t => createTableStatement t :: t.indexes) := by
  induction schema generalizing acc with
  | nil => simp
  | cons t rest ih =>
    simp only [List.foldl_cons, List.flatMap_cons, ih]
    simp [List.append_assoc]

/-- C8: generateSQL consumes every field and every index of every
table exactly once — the statement array is exactly, per table in
original order, one CREATE TABLE statement (whose column block lists
the table's fields in original order) followed by that table's index
strings verbatim in original order, and the rendered text joins these
statements with blank-line separators. -/
theorem generate_sql_structure (schema : List TableSchema) :
    sqlStatements schema =
      schema.flatMap (fun t => createTableStatement t :: t.indexes) ∧
    generateSQL schema =
      "\n\n".intercalate
        (schema.flatMap (fun t => createTableStatement t :: t.indexes)) ∧
    ∀ t : TableSchema, createTableStatement t =
      "\nCREATE TABLE " ++ t.name ++ " (\n" ++
        ",\n".intercalate (t.fields.map fieldLine) ++ "\n);" := by
  refine ⟨?_, ?_, fun t => rfl⟩
  · simpa [sqlStatements] using sqlStatements_foldl_bind schema []
  · simp only [generateSQL, sqlStatements]
    rw [sqlStatements_foldl_bind schema []]
    simp

/-- C9: generateSQL is deterministic — its output depends on nothing
but the schema argument: run in any two ambient worlds (environment,
clock, randomness) on the same TableSchema sequence it produces the
identical string. -/
theorem generate_sql_deterministic (schema : List TableSchema)
    (w1 w2 : World) :
    generateSQLRun schema w1 = generateSQLRun schema w2 ∧
    generateSQLRun schema w1 = generateSQL schema :=
  ⟨rfl, rfl⟩

set_option maxRecDepth 8192 in
/-- C7: rendering the fallback mockSchema produces exactly the four
statements users CREATE TABLE, users index, posts CREATE TABLE, posts
index — in particular exactly two CREATE TABLE statements, for users
and posts, whose column blocks contain exactly the fields id,
username, email, created_at and id, title, content, user_id,
created_at respectively. Since mockSchema is a constant, this holds
whatever malformed input triggered the fallback. -/
theorem fallback_schema_render :
    sqlStatements mockSchema =
      ["\nCREATE TABLE users (\n  id SERIAL PRIMARY KEY,\n  username VARCHAR(50) NOT NULL UNIQUE,\n  email VARCHAR(255) NOT NULL UNIQUE,\n  created_at TIMESTAMP NOT NULL DEFAULT CURRENT_TIMESTAMP\n);",
       "CREATE INDEX idx_users_username ON users(username);",
       "\nCREATE TABLE posts (\n  id SERIAL PRIMARY KEY,\n  title VARCHAR(255) NOT NULL,\n  content TEXT NOT NULL,\n  user_id INTEGER NOT NULL REFERENCES users(id),\n  created_at TIMESTAMP NOT NULL DEFAULT CURRENT_TIMESTAMP\n);",
       "CREATE INDEX idx_posts_user_id ON posts(user_id);"] ∧
    ((sqlStatements mockSchema).filter
        (fun s => "\nCREATE TABLE".data.isPrefixOf s.data)).length = 2 ∧
    mockSchema.map (fun t => (t.name, t.fields.map (fun f => f.name))) =
      [("users", ["id", "username", "email", "created_at"]),
       ("posts", ["id", "title", "content", "user_id", "created_at"])] := by
  refine ⟨?_, ?_, ?_⟩ <;> decide

/-! ## Completion parsing and the fallback -/

/-- C1 counterexample: a completion that parses as JSON to an object
lacking a tables array does not trigger the fallback — the source
returns schema.tables, which is undefined, without throwing; and a
completion with unbalanced braces whose first-brace-to-last-brace
substring is valid JSON also does not trigger the fallback. The claim
is therefore false on the code for both of those cases. -/
theorem generate_schema_fallback_counterexample :
    generateSchemaParse "\x7b\"foo\": 1\x7d" =
      GenerateSchemaResult.parsed none ∧
    generateSchemaParse "\x7b\"tables\": []\x7d \x7b" =
      GenerateSchemaResult.parsed (some (JsonValue.arr [])) ∧
    isFallback (GenerateSchemaResult.parsed none) = false ∧
    isFallback (GenerateSchemaResult.parsed (some (JsonValue.arr []))) =
      false :=
  ⟨rfl, rfl, rfl, rfl⟩

/-- C1 (amended): generateSchema returns the fallback mockSchema
exactly when the cleaned completion has no brace-delimited substring
(no opening brace, or no closing brace after the first opening brace)
or the extracted first-brace-to-last-brace substring is not valid
JSON; in particular the literal inputs 'not json' and an unclosed
object header both yield the fallback. An input that parses to an
object lacking a tables member instead returns that object's
undefined tables property, and an input with unbalanced braces whose
extracted substring is valid JSON is accepted. -/
theorem generate_schema_fallback_characterization :
    (∀ response : String,
      generateSchemaParse response = GenerateSchemaResult.fallback ↔
        (extractBraces (cleanResponse response)).bind jsonParseChars =
          none) ∧
    generateSchemaParse "not json" = GenerateSchemaResult.fallback ∧
    generateSchemaParse "\x7b tables: [" =
      GenerateSchemaResult.fallback := by
  refine ⟨?_, rfl, rfl⟩
  intro response
  cases hE : extractBraces (cleanResponse response) with
  | none => simp [generateSchemaParse, hE]
  | some js =>
    cases hP : jsonParseChars js with
    | none => simp [generateSchemaParse, hE, hP]
    | some v => simp [generateSchemaParse, hE, hP]

/-! ## Aggregation -/

theorem sumDurations_eq_sum (rs : List BenchmarkResult) :
    sumDurations rs = (rs.map (fun r => (r.duration : ℚ))).sum := by
  suffices h : ∀ a : ℚ,
      rs.foldl (fun sum r => sum + (r.duration : ℚ)) a =
        a + (rs.map (fun r => (r.duration : ℚ))).sum by
    simpa [sumDurations] using h 0
  induction rs with
  | nil => intro a; simp
  | cons r rest ih => intro a; simp [List.foldl_cons, ih, add_assoc]

/-- C4: over a group of N results of which K succeeded, printResults
reports a success rate of exactly (K/N)×100 and an average duration
equal to the arithmetic mean of all N durations, the durations of
failed entries included (the computation is exact in ℚ, modelling the
exactness of the claim). -/
theorem aggregation_success_rate_and_mean (rs : List BenchmarkResult)
    (N K : Nat) (hN : rs.length = N) (hK : successCount rs = K)
    (hpos : 0 < N) :
    successRate rs = ((K : ℚ) / (N : ℚ)) * 100 ∧
    avgDuration rs = (rs.map (fun r => (r.duration : ℚ))).sum / (N : ℚ) := by
  subst hN
  subst hK
  exact ⟨rfl, by rw [avgDuration, sumDurations_eq_sum]⟩

/-- C4 witness: the theorem applied to a concrete two-element group
with one success: success rate 50 percent, average duration the mean
of the two durations. -/
theorem aggregation_success_rate_and_mean_witness :
    ([rA, rB].length = 2 ∧ successCount [rA, rB] = 1 ∧ 0 < 2) ∧
    (successRate [rA, rB] = (((1 : Nat) : ℚ) / ((2 : Nat) : ℚ)) * 100 ∧
     avgDuration [rA, rB] =
       ([rA, rB].map (fun r => (r.duration : ℚ))).sum / ((2 : Nat) : ℚ)) :=
  ⟨⟨rfl, rfl, by decide⟩,
   aggregation_success_rate_and_mean [rA, rB] 2 1 rfl rfl (by decide)⟩

/-! ## Grouping -/

theorem pushToGroup_join_count
    (acc : List (String × List BenchmarkResult)) (key : String)
    (r x : BenchmarkResult) :
    (((pushToGroup acc key r).map Prod.snd).flatten).count x =
      ((acc.map Prod.snd).flatten).count x + (if r = x then 1 else 0) := by
  induction acc with
  | nil => simp [pushToGroup, List.count_singleton]
  | cons p rest ih =>
    obtain ⟨k, g⟩ := p
    by_cases h : k = key
    · simp only [pushToGroup, if_pos h, List.map_cons, List.flatten_cons,
        List.count_append, List.count_singleton]
      by_cases hrx : r = x <;> (simp [hrx]; try omega)
    · simp only [pushToGroup, if_neg h, List.map_cons, List.flatten_cons,
        List.count_append, ih]
      omega

theorem groupedFold_join_count (rs : List BenchmarkResult)
    (acc : List (String × List BenchmarkResult)) (x : BenchmarkResult) :
    (((rs.foldl (fun a r => pushToGroup a (groupKey r) r) acc).map
        Prod.snd).flatten).count x =
      ((acc.map Prod.snd).flatten).count x + rs.count x := by
  induction rs generalizing acc with
  | nil => simp
  | cons r rest ih =>
    simp only [List.foldl_cons, ih, pushToGroup_join_count,
      List.count_cons]
    by_cases hrx : r = x <;> (simp [hrx]; try omega)

theorem pushToGroup_keys
    (acc : List (String × List BenchmarkResult)) (key : String)
    (r : BenchmarkResult) :
    (pushToGroup acc key r).map Prod.fst =
      if key ∈ acc.map Prod.fst then acc.map Prod.fst
      else acc.map Prod.fst ++ [key] := by
  induction acc with
  | nil => simp [pushToGroup]
  | cons p rest ih =>
    obtain ⟨k, g⟩ := p
    by_cases h : k = key
    · simp [pushToGroup, h]
    · have hne : key ≠ k := fun hk => h hk.symm
      by_cases hm : key ∈ rest.map Prod.fst <;>
        simp [pushToGroup, h, ih, hm, hne]

theorem pushToGroup_nodup_keys
    (acc : List (String × List BenchmarkResult)) (key : String)
    (r : BenchmarkResult) (h : (acc.map Prod.fst).Nodup) :
    ((pushToGroup acc key r).map Prod.fst).Nodup := by
  rw [pushToGroup_keys]
  by_cases hm : key ∈ acc.map Prod.fst
  · simpa [hm] using h
  · simp only [if_neg hm]
    rw [List.nodup_append]
    exact ⟨h, List.nodup_singleton key, by simpa using hm⟩

theorem pushToGroup_mem_sound
    (acc : List (String × List BenchmarkResult)) (r : BenchmarkResult)
    (h : ∀ p ∈ acc, ∀ x ∈ p.2, groupKey x = p.1) :
    ∀ p ∈ pushToGroup acc (groupKey r) r, ∀ x ∈ p.2, groupKey x = p.1 := by
  induction acc with
  | nil =>
    intro p hp x hx
    simp only [pushToGroup, List.mem_singleton] at hp
    subst hp
    simp only [List.mem_singleton] at hx
    subst hx
    rfl
  | cons q rest ih =>
    obtain ⟨k, g⟩ := q
    intro p hp x hx
    by_cases hk : k = groupKey r
    · simp only [pushToGroup, if_pos hk, List.mem_cons] at hp
      rcases hp with hp | hp
      · subst hp
        simp only [List.mem_append, List.mem_singleton] at hx
        rcases hx with hx | hx
        · exact h (k, g) (List.mem_cons_self _ _) x hx
        · subst hx; exact hk.symm
      · exact h p (List.mem_cons_of_mem _ hp) x hx
    · simp only [pushToGroup, if_neg hk, List.mem_cons] at hp
      rcases hp with hp | hp
      · subst hp
        exact h (k, g) (List.mem_cons_self _ _) x hx
      · exact ih (fun p' hp' => h p' (List.mem_cons_of_mem _ hp')) p hp x hx

theorem pushToGroup_wf
    (acc : List (String × List BenchmarkResult)) (r : BenchmarkResult)
    (h : GroupsWF acc) : GroupsWF (pushToGroup acc (groupKey r) r) :=
  ⟨pushToGroup_nodup_keys acc (groupKey r) r h.1,
   pushToGroup_mem_sound acc r h.2⟩

theorem groupedResults_wf (rs : List BenchmarkResult) :
    GroupsWF (groupedResults rs) := by
  suffices h : ∀ acc, GroupsWF acc →
      GroupsWF (rs.foldl (fun a r => pushToGroup a (groupKey r) r) acc) by
    exact h [] ⟨List.nodup_nil, by simp⟩
  induction rs with
  | nil => intro acc hacc; exact hacc
  | cons r rest ih =>
    intro acc hacc
    exact ih (pushToGroup acc (groupKey r) r) (pushToGroup_wf acc r hacc)

theorem groupedResults_join_count (rs : List BenchmarkResult)
    (x : BenchmarkResult) :
    (((groupedResults rs).map Prod.snd).flatten).count x = rs.count x := by
  simpa [groupedResults] using groupedFold_join_count rs [] x

theorem mem_group_exists (rs : List BenchmarkResult)
    (x : BenchmarkResult) (hx : x ∈ rs) :
    ∃ p ∈ groupedResults rs, x ∈ p.2 := by
  have hmem : x ∈ ((groupedResults rs).map Prod.snd).flatten := by
    rw [← List.count_pos_iff, groupedResults_join_count]
    exact List.count_pos_iff.mpr hx
  obtain ⟨g, hg, hxg⟩ := List.mem_flatten.mp hmem
  obtain ⟨p, hp, rfl⟩ := List.mem_map.mp hg
  exact ⟨p, hp, hxg⟩

theorem mem_group_unique (rs : List BenchmarkResult)
    (p q : String × List BenchmarkResult) (x : BenchmarkResult)
    (hp : p ∈ groupedResults rs) (hq : q ∈ groupedResults rs)
    (hxp : x ∈ p.2) (hxq : x ∈ q.2) : p = q := by
  obtain ⟨hnd, hsound⟩ := groupedResults_wf rs
  exact List.inj_on_of_nodup_map hnd hp hq
    ((hsound p hp x hxp).symm.trans (hsound q hq x hxq))

theorem append_dash_inj_aux : ∀ l1 l2 o1 o2 : List Char,
    '-' ∉ l1 → '-' ∉ l2 → l1 ++ '-' :: o1 = l2 ++ '-' :: o2 →
    l1 = l2 ∧ o1 = o2
  | [], [], o1, o2, _, _, h => by simpa using h
  | [], d :: l2', o1, o2, _, h2, h => by
      simp only [List.nil_append, List.cons_append, List.cons.injEq] at h
      refine absurd ?_ h2
      rw [h.1]
      exact List.mem_cons_self d l2'
  | c :: l1', [], o1, o2, h1, _, h => by
      simp only [List.cons_append, List.nil_append, List.cons.injEq] at h
      refine absurd ?_ h1
      rw [← h.1]
      exact List.mem_cons_self c l1'
  | c :: l1', d :: l2', o1, o2, h1, h2, h => by
      simp only [List.cons_append, List.cons.injEq] at h
      obtain ⟨rfl, htail⟩ := h
      obtain ⟨rfl, rfl⟩ := append_dash_inj_aux l1' l2' o1 o2
        (fun hm => h1 (List.mem_cons_of_mem _ hm))
        (fun hm => h2 (List.mem_cons_of_mem _ hm)) htail
      exact ⟨rfl, rfl⟩

theorem append_dash_inj (l1 o1 : List Char) (l2 o2 : List Char)
    (h1 : '-' ∉ l1) (h2 : '-' ∉ l2) :
    l1 ++ '-' :: o1 = l2 ++ '-' :: o2 ↔ l1 = l2 ∧ o1 = o2 := by
  constructor
  · exact append_dash_inj_aux l1 l2 o1 o2 h1 h2
  · rintro ⟨rfl, rfl⟩; rfl

theorem groupKey_eq_iff (r1 r2 : BenchmarkResult)
    (h1 : '-' ∉ r1.database.data) (h2 : '-' ∉ r2.database.data) :
    groupKey r1 = groupKey r2 ↔
      r1.database = r2.database ∧ r1.operation = r2.operation := by
  simp only [groupKey, String.ext_iff, String.data_append,
    List.append_assoc, List.singleton_append]
  exact append_dash_inj r1.database.data r1.operation.data
    r2.database.data r2.operation.data h1 h2

/-- C5 counterexample: two results with different backend names and
different operation names ('a-b'/'c' and 'a'/'b-c') produce the same
composite key string and land in the same bucket, so the claim that
entries are grouped together only when backend and operation both
match is false on the code. -/
theorem grouping_key_collision_counterexample :
    groupedResults [rCollide1, rCollide2] =
      [("a-b-c", [rCollide1, rCollide2])] ∧
    (rCollide1.database == rCollide2.database) = false :=
  ⟨rfl, rfl⟩

/-- C5 (amended): aggregation partitions the results — every entry's
multiplicity is preserved by the flattened buckets (nothing dropped or
double-counted), every entry lies in exactly one bucket, and two
entries share a bucket exactly when their composite key strings
database-dash-operation coincide. Key equality coincides with equality
of both backend and operation whenever the backend names contain no
dash (as is the case for the three backends the harness uses), but not
in general, as the counterexample shows. -/
theorem grouping_partition_amended (rs : List BenchmarkResult) :
    (∀ x : BenchmarkResult,
      (((groupedResults rs).map Prod.snd).flatten).count x = rs.count x) ∧
    (∀ r ∈ rs, ∃ p, (p ∈ groupedResults rs ∧ r ∈ p.2) ∧
      ∀ q, q ∈ groupedResults rs → r ∈ q.2 → q = p) ∧
    (∀ r1 ∈ rs, ∀ r2 ∈ rs,
      ((∃ p ∈ groupedResults rs, r1 ∈ p.2 ∧ r2 ∈ p.2) ↔
        groupKey r1 = groupKey r2)) ∧
    (∀ r1 r2 : BenchmarkResult, '-' ∉ r1.database.data →
      '-' ∉ r2.database.data →
      (groupKey r1 = groupKey r2 ↔
        (r1.database = r2.database ∧ r1.operation = r2.operation))) := by
  refine ⟨groupedResults_join_count rs, ?_, ?_,
    fun r1 r2 h1 h2 => groupKey_eq_iff r1 r2 h1 h2⟩
  · intro r hr
    obtain ⟨p, hp, hrp⟩ := mem_group_exists rs r hr
    exact ⟨p, ⟨hp, hrp⟩,
      fun q hq hrq => mem_group_unique rs q p r hq hp hrq hrp⟩
  · intro r1 hr1 r2 hr2
    constructor
    · rintro ⟨p, hp, h1p, h2p⟩
      obtain ⟨_, hsound⟩ := groupedResults_wf rs
      exact (hsound p hp r1 h1p).trans (hsound p hp r2 h2p).symm
    · intro hkey
      obtain ⟨p1, hp1, h1p⟩ := mem_group_exists rs r1 hr1
      obtain ⟨p2, hp2, h2p⟩ := mem_group_exists rs r2 hr2
      obtain ⟨hnd, hsound⟩ := groupedResults_wf rs
      have hpp : p1 = p2 := List.inj_on_of_nodup_map hnd hp1 hp2
        (((hsound p1 hp1 r1 h1p).symm.trans hkey).trans
          (hsound p2 hp2 r2 h2p))
      subst hpp
      exact ⟨p1, hp1, h1p, h2p⟩

/-- C5 witness: the amended theorem applied at the empty results
sequence and the concrete dash-free result rA, discharging the
dash-freeness hypotheses. -/
theorem grouping_partition_amended_witness :
    ('-' ∉ rA.database.data) ∧
    (groupKey rA = groupKey rA ↔
      (rA.database = rA.database ∧ rA.operation = rA.operation)) :=
  ⟨by decide,
   (grouping_partition_amended []).2.2.2 rA rA (by decide) (by decide)⟩
